import Mathlib

/-!
Verification of the cloudmqtt repository (an MQTT 3.1.1 / 5.0 codec and broker)
against its natural-language specification.

The development shallowly embeds the relevant Rust sources:

* `src/mqtt-format/src/v5/packets/disconnect.rs` (`MDisconnect`),
* `src/mqtt-format/src/v5/packets/pubrel.rs` (`MPubrel`),
* `src/mqtt-format/src/v5/write.rs` (`write_u16` / `write_u32`),
* `src/src/server/subscriptions.rs` (subscription trie, matching, routing),
* `src/src/server/mod.rs` (connect/session logic, read loop, send loop).

Bytes are `Nat`s below 256, byte strings are `List Nat`.  Parsers are
functions `List Nat → Option (α × List Nat)` returning the parsed value and
the unconsumed input; encoders are functions into `List Nat`.

Helpers that live in repository files that are not part of the provided
sources (the v5 integer/string/property codecs in
`mqtt-format/src/v5/{integers,strings,variable_header,properties,reason_code}.rs`,
the v3 `qos.rs` and `packet.rs`, and the broker's `message.rs`) are modelled
from the specification; each such definition carries a doc comment starting
with `Modelled from the spec:`.
-/

/-! ## Variable length integers, fixed-width integers, strings -/

/-- Modelled from the spec: `mqtt-format` VarInt emission
(`integers.rs` is absent). An unsigned integer in `[0, 268435455]` is encoded
on 1 to 4 bytes, low 7 bits of each byte carrying payload, high bit set on
continuation bytes; emission uses the shortest form. -/
def encodeVarInt (n : Nat) : List Nat :=
  if n < 128 then [n]
  else if n < 16384 then [n % 128 + 128, n / 128]
  else if n < 2097152 then [n % 128 + 128, n / 128 % 128 + 128, n / 16384]
  else [n % 128 + 128, n / 128 % 128 + 128, n / 16384 % 128 + 128, n / 2097152]

/-- Modelled from the spec: `mqtt-format` VarInt decoding (`integers.rs` is
absent). Reads 1 to 4 bytes; a continuation bit on the fourth byte or a
truncated input is malformed (`none`). -/
def decodeVarInt : List Nat → Option (Nat × List Nat)
  | [] => none
  | b0 :: r0 =>
    if b0 < 128 then some (b0, r0)
    else
      match r0 with
      | [] => none
      | b1 :: r1 =>
        if b1 < 128 then some (b0 % 128 + 128 * b1, r1)
        else
          match r1 with
          | [] => none
          | b2 :: r2 =>
            if b2 < 128 then some (b0 % 128 + 128 * (b1 % 128) + 16384 * b2, r2)
            else
              match r2 with
              | [] => none
              | b3 :: r3 =>
                if b3 < 128 then
                  some (b0 % 128 + 128 * (b1 % 128) + 16384 * (b2 % 128) + 2097152 * b3, r3)
                else none

/-- Embeds `WriteMqttPacket::write_u16` from `mqtt-format/src/v5/write.rs`
(lines 22-27): the high byte `(u >> 8) as u8` followed by the low byte
`u as u8`. -/
def encodeU16 (v : Nat) : List Nat := [v / 256 % 256, v % 256]

/-- Modelled from the spec: `take_u16_be` reads a two-byte big-endian
integer, failing on short input. -/
def decodeU16 : List Nat → Option (Nat × List Nat)
  | b0 :: b1 :: rest => some (b0 * 256 + b1, rest)
  | _ => none

/-- Embeds `WriteMqttPacket::write_u32` from `mqtt-format/src/v5/write.rs`
(lines 30-38): the four big-endian bytes of `u`. -/
def encodeU32 (v : Nat) : List Nat :=
  [v / 16777216 % 256, v / 65536 % 256, v / 256 % 256, v % 256]

/-- Modelled from the spec: `take_u32_be` reads a four-byte big-endian
integer, failing on short input. -/
def decodeU32 : List Nat → Option (Nat × List Nat)
  | b0 :: b1 :: b2 :: b3 :: rest => some (((b0 * 256 + b1) * 256 + b2) * 256 + b3, rest)
  | _ => none

/-- Modelled from the spec: an MQTT string or binary-data element is a
two-byte big-endian length prefix followed by that many bytes
(`strings.rs` is absent; the UTF-8 validity check is not modelled, string
contents are abstract bytes). -/
def encodeMqttString (s : List Nat) : List Nat := encodeU16 s.length ++ s

/-- Modelled from the spec: reading a length-prefixed string or binary-data
element; fails when fewer bytes than announced remain. -/
def decodeMqttString (bytes : List Nat) : Option (List Nat × List Nat) :=
  match decodeU16 bytes with
  | none => none
  | some (n, rest) => if rest.length < n then none else some (rest.take n, rest.drop n)

/-! ## v5 DISCONNECT (`mqtt-format/src/v5/packets/disconnect.rs`) -/

/-- Embeds the `DisconnectReasonCode` enum generated by
`make_combined_reason_code!` in `disconnect.rs` lines 19-52. -/
inductive DisconnectReasonCode
  | administrativeAction
  | badAuthenticationMethod
  | connectionRateExceeded
  | disconnectWithWillMessage
  | implementationSpecificError
  | keepAliveTimeout
  | malformedPacket
  | maximumConnectTime
  | messageRateTooHigh
  | normalDisconnection
  | notAuthorized
  | packetTooLarge
  | payloadFormatInvalid
  | protocolError
  | qosNotSupported
  | quotaExceeded
  | receiveMaximumExceeded
  | retainNotSupported
  | serverBusy
  | serverMoved
  | serverShuttingDown
  | sessionTakenOver
  | sharedSubscriptionsNotSupported
  | subscriptionIdentifiersNotSupported
  | topicAliasInvalid
  | topicFilterInvalid
  | topicNameInvalid
  | unspecifiedError
  | useAnotherServer
  | wildcardSubscriptionsNotSupported
deriving DecidableEq, Repr

namespace DisconnectReasonCode

/-- Modelled from the spec: the wire byte of each disconnect reason code as
enumerated in the MQTT v5 specification (`reason_code.rs` is absent). -/
def toByte : DisconnectReasonCode → Nat
  | .normalDisconnection => 0x00
  | .disconnectWithWillMessage => 0x04
  | .unspecifiedError => 0x80
  | .malformedPacket => 0x81
  | .protocolError => 0x82
  | .implementationSpecificError => 0x83
  | .notAuthorized => 0x87
  | .serverBusy => 0x89
  | .serverShuttingDown => 0x8B
  | .badAuthenticationMethod => 0x8C
  | .keepAliveTimeout => 0x8D
  | .sessionTakenOver => 0x8E
  | .topicFilterInvalid => 0x8F
  | .topicNameInvalid => 0x90
  | .receiveMaximumExceeded => 0x93
  | .topicAliasInvalid => 0x94
  | .packetTooLarge => 0x95
  | .messageRateTooHigh => 0x96
  | .quotaExceeded => 0x97
  | .administrativeAction => 0x98
  | .payloadFormatInvalid => 0x99
  | .retainNotSupported => 0x9A
  | .qosNotSupported => 0x9B
  | .useAnotherServer => 0x9C
  | .serverMoved => 0x9D
  | .sharedSubscriptionsNotSupported => 0x9E
  | .connectionRateExceeded => 0x9F
  | .maximumConnectTime => 0xA0
  | .subscriptionIdentifiersNotSupported => 0xA1
  | .wildcardSubscriptionsNotSupported => 0xA2

/-- Modelled from the spec: decoding a disconnect reason code byte; any byte
not naming a legal disconnect reason code is a malformed packet. -/
def ofByte (b : Nat) : Option DisconnectReasonCode :=
  if b = 0x00 then some .normalDisconnection
  else if b = 0x04 then some .disconnectWithWillMessage
  else if b = 0x80 then some .unspecifiedError
  else if b = 0x81 then some .malformedPacket
  else if b = 0x82 then some .protocolError
  else if b = 0x83 then some .implementationSpecificError
  else if b = 0x87 then some .notAuthorized
  else if b = 0x89 then some .serverBusy
  else if b = 0x8B then some .serverShuttingDown
  else if b = 0x8C then some .badAuthenticationMethod
  else if b = 0x8D then some .keepAliveTimeout
  else if b = 0x8E then some .sessionTakenOver
  else if b = 0x8F then some .topicFilterInvalid
  else if b = 0x90 then some .topicNameInvalid
  else if b = 0x93 then some .receiveMaximumExceeded
  else if b = 0x94 then some .topicAliasInvalid
  else if b = 0x95 then some .packetTooLarge
  else if b = 0x96 then some .messageRateTooHigh
  else if b = 0x97 then some .quotaExceeded
  else if b = 0x98 then some .administrativeAction
  else if b = 0x99 then some .payloadFormatInvalid
  else if b = 0x9A then some .retainNotSupported
  else if b = 0x9B then some .qosNotSupported
  else if b = 0x9C then some .useAnotherServer
  else if b = 0x9D then some .serverMoved
  else if b = 0x9E then some .sharedSubscriptionsNotSupported
  else if b = 0x9F then some .connectionRateExceeded
  else if b = 0xA0 then some .maximumConnectTime
  else if b = 0xA1 then some .subscriptionIdentifiersNotSupported
  else if b = 0xA2 then some .wildcardSubscriptionsNotSupported
  else none

/-- Modelled from the spec: reason-code parsing consumes one byte. -/
def parse : List Nat → Option (DisconnectReasonCode × List Nat)
  | [] => none
  | b :: rest =>
    match ofByte b with
    | some c => some (c, rest)
    | none => none

/-- Modelled from the spec: reason-code emission writes one byte. -/
def write (c : DisconnectReasonCode) : List Nat := [c.toByte]

end DisconnectReasonCode

/-- Modelled from the spec: the number of `(identifier, value)` pairs an
optional property slot contributes to the block body. -/
def optCount {α : Type} : Option α → Nat
  | some _ => 1
  | none => 0

/-- Modelled from the spec: the wire form of an optional four-byte-integer
property slot: identifier VarInt then the big-endian value, or nothing. -/
def u32PropSeg (id : Nat) : Option Nat → List Nat
  | some v => encodeVarInt id ++ encodeU32 v
  | none => []

/-- Modelled from the spec: the wire form of an optional UTF-8-string
property slot: identifier VarInt then the length-prefixed string, or
nothing. -/
def stringPropSeg (id : Nat) : Option (List Nat) → List Nat
  | some s => encodeVarInt id ++ encodeMqttString s
  | none => []

/-- Modelled from the spec: the wire form of the repeatable User Property
slot: one identifier VarInt and string pair per entry, in order. -/
def userPropSeg (pairs : List (List Nat × List Nat)) : List Nat :=
  pairs.flatMap fun kv => encodeVarInt 0x26 ++ encodeMqttString kv.1 ++ encodeMqttString kv.2

/-- Embeds the `DisconnectProperties` struct declared via
`define_properties!` in `disconnect.rs` lines 54-70.  Per the spec a decoded
property block is a record with one optional field per slot plus a list for
the repeatable User Property slot (order preserved, `[]` meaning absent). -/
structure DisconnectProperties where
  session_expiry_interval : Option Nat
  reason_string : Option (List Nat)
  user_properties : List (List Nat × List Nat)
  server_reference : Option (List Nat)
deriving DecidableEq, Repr

namespace DisconnectProperties

/-- Embeds `DisconnectProperties::new()`: the empty property block. -/
def new : DisconnectProperties :=
  { session_expiry_interval := none
    reason_string := none
    user_properties := []
    server_reference := none }

/-- Modelled from the spec: the body of the property block, one
`(identifier, value)` pair per present property, fields emitted in
declaration order (Session Expiry Interval 0x11, Reason String 0x1F, User
Property 0x26, Server Reference 0x1C). -/
def writeBody (p : DisconnectProperties) : List Nat :=
  u32PropSeg 0x11 p.session_expiry_interval ++
  stringPropSeg 0x1F p.reason_string ++
  userPropSeg p.user_properties ++
  stringPropSeg 0x1C p.server_reference

/-- Modelled from the spec: property-block emission advertises the VarInt
length of the block body, computed first, then the body. -/
def write (p : DisconnectProperties) : List Nat :=
  encodeVarInt p.writeBody.length ++ p.writeBody

/-- Modelled from the spec: the property-pair reading loop.  Repeatedly
reads an identifier VarInt and the corresponding typed value from the
remaining block bytes; a duplicated non-repeatable property or an unknown
identifier is an error.  The fuel argument bounds the number of iterations;
callers pass the block length, which suffices because every property
consumes at least one byte. -/
def parseLoop : Nat → List Nat → DisconnectProperties → Option DisconnectProperties
  | _, [], acc => some acc
  | 0, _ :: _, _ => none
  | fuel + 1, b :: bs, acc =>
    match decodeVarInt (b :: bs) with
    | none => none
    | some (id, rest) =>
      if id = 0x11 then
        match decodeU32 rest with
        | none => none
        | some (v, rest1) =>
          if acc.session_expiry_interval.isSome then none
          else parseLoop fuel rest1 { acc with session_expiry_interval := some v }
      else if id = 0x1F then
        match decodeMqttString rest with
        | none => none
        | some (s, rest1) =>
          if acc.reason_string.isSome then none
          else parseLoop fuel rest1 { acc with reason_string := some s }
      else if id = 0x26 then
        match decodeMqttString rest with
        | none => none
        | some (k, rest1) =>
          match decodeMqttString rest1 with
          | none => none
          | some (v, rest2) =>
            parseLoop fuel rest2 { acc with user_properties := acc.user_properties ++ [(k, v)] }
      else if id = 0x1C then
        match decodeMqttString rest with
        | none => none
        | some (s, rest1) =>
          if acc.server_reference.isSome then none
          else parseLoop fuel rest1 { acc with server_reference := some s }
      else none

/-- Modelled from the spec: two-phase property parsing.  Read the VarInt
block length `len`, then read `(identifier, value)` pairs from the next
`len` bytes, returning the populated record and the input after the block. -/
def parse (bytes : List Nat) : Option (DisconnectProperties × List Nat) :=
  match decodeVarInt bytes with
  | none => none
  | some (len, rest) =>
    if rest.length < len then none
    else
      match parseLoop len (rest.take len) DisconnectProperties.new with
      | none => none
      | some props => some (props, rest.drop len)

end DisconnectProperties

/-- Embeds the `MDisconnect` struct from `disconnect.rs` lines 75-78. -/
structure MDisconnect where
  reason_code : DisconnectReasonCode
  properties : DisconnectProperties
deriving DecidableEq, Repr

namespace MDisconnect

/-- Embeds `MDisconnect::parse` from `disconnect.rs` lines 81-102: the
reason code is parsed only when at least one byte remains (defaulting to
NormalDisconnection), the properties only when at least two bytes remain
after it (defaulting to the empty block). -/
def parse (input : List Nat) : Option (MDisconnect × List Nat) :=
  match
    if 1 ≤ input.length then DisconnectReasonCode.parse input
    else some (.normalDisconnection, input)
  with
  | none => none
  | some (reason_code, rest) =>
    match
      if 2 ≤ rest.length then DisconnectProperties.parse rest
      else some (DisconnectProperties.new, rest)
    with
    | none => none
    | some (properties, rest1) => some ({ reason_code, properties }, rest1)

/-- Embeds `MDisconnect::write` from `disconnect.rs` lines 108-111: the
reason code followed by the property block, written unconditionally. -/
def write (p : MDisconnect) : List Nat :=
  DisconnectReasonCode.write p.reason_code ++ p.properties.write

end MDisconnect

/-! ## v5 PUBREL (`mqtt-format/src/v5/packets/pubrel.rs`) -/

/-- Embeds the `PubrelReasonCode` enum from `pubrel.rs` lines 18-23. -/
inductive PubrelReasonCode
  | success
  | packetIdentifierNotFound
deriving DecidableEq, Repr

namespace PubrelReasonCode

/-- Modelled from the spec: the wire bytes (Success 0x00,
PacketIdentifierNotFound 0x92) of the pubrel reason codes. -/
def toByte : PubrelReasonCode → Nat
  | .success => 0x00
  | .packetIdentifierNotFound => 0x92

/-- Modelled from the spec: decoding a pubrel reason code byte. -/
def ofByte (b : Nat) : Option PubrelReasonCode :=
  if b = 0x00 then some .success
  else if b = 0x92 then some .packetIdentifierNotFound
  else none

/-- Modelled from the spec: reason-code parsing consumes one byte. -/
def parse : List Nat → Option (PubrelReasonCode × List Nat)
  | [] => none
  | b :: rest =>
    match ofByte b with
    | some c => some (c, rest)
    | none => none

/-- Modelled from the spec: reason-code emission writes one byte. -/
def write (c : PubrelReasonCode) : List Nat := [c.toByte]

end PubrelReasonCode

/-- Embeds the `PubrelProperties` struct declared via `define_properties!`
in `pubrel.rs` lines 25-35. -/
structure PubrelProperties where
  reason_string : Option (List Nat)
  user_properties : List (List Nat × List Nat)
deriving DecidableEq, Repr

namespace PubrelProperties

/-- Embeds `PubrelProperties::new()`: the empty property block. -/
def new : PubrelProperties :=
  { reason_string := none, user_properties := [] }

/-- Modelled from the spec: the property-block body of a PUBREL (Reason
String 0x1F, User Property 0x26), fields emitted in declaration order. -/
def writeBody (p : PubrelProperties) : List Nat :=
  stringPropSeg 0x1F p.reason_string ++ userPropSeg p.user_properties

/-- Modelled from the spec: property-block emission, VarInt length prefix
first. -/
def write (p : PubrelProperties) : List Nat :=
  encodeVarInt p.writeBody.length ++ p.writeBody

/-- Modelled from the spec: the property-pair reading loop of a PUBREL
property block; only Reason String and User Property are legal here. -/
def parseLoop : Nat → List Nat → PubrelProperties → Option PubrelProperties
  | _, [], acc => some acc
  | 0, _ :: _, _ => none
  | fuel + 1, b :: bs, acc =>
    match decodeVarInt (b :: bs) with
    | none => none
    | some (id, rest) =>
      if id = 0x1F then
        match decodeMqttString rest with
        | none => none
        | some (s, rest1) =>
          if acc.reason_string.isSome then none
          else parseLoop fuel rest1 { acc with reason_string := some s }
      else if id = 0x26 then
        match decodeMqttString rest with
        | none => none
        | some (k, rest1) =>
          match decodeMqttString rest1 with
          | none => none
          | some (v, rest2) =>
            parseLoop fuel rest2 { acc with user_properties := acc.user_properties ++ [(k, v)] }
      else none

/-- Modelled from the spec: two-phase property parsing for PUBREL. -/
def parse (bytes : List Nat) : Option (PubrelProperties × List Nat) :=
  match decodeVarInt bytes with
  | none => none
  | some (len, rest) =>
    if rest.length < len then none
    else
      match parseLoop len (rest.take len) PubrelProperties.new with
      | none => none
      | some props => some (props, rest.drop len)

end PubrelProperties

/-- Embeds the `MPubrel` struct from `pubrel.rs` lines 40-44.  The packet
identifier (`variable_header.rs` is absent) is modelled from the spec as a
two-byte big-endian integer. -/
structure MPubrel where
  packet_identifier : Nat
  reason : PubrelReasonCode
  properties : PubrelProperties
deriving DecidableEq, Repr

namespace MPubrel

/-- Embeds `MPubrel::parse` from `pubrel.rs` lines 47-68: the packet
identifier, then, when the input is empty, reason Success with empty
properties, otherwise an explicit reason code and property block. -/
def parse (input : List Nat) : Option (MPubrel × List Nat) :=
  match decodeU16 input with
  | none => none
  | some (packet_identifier, rest) =>
    if rest.isEmpty then
      some ({ packet_identifier, reason := .success, properties := PubrelProperties.new }, rest)
    else
      match PubrelReasonCode.parse rest with
      | none => none
      | some (reason, rest1) =>
        match PubrelProperties.parse rest1 with
        | none => none
        | some (properties, rest2) => some ({ packet_identifier, reason, properties }, rest2)

/-- Embeds `MPubrel::write` from `pubrel.rs` lines 76-80: packet identifier,
reason code, property block, all written unconditionally. -/
def write (p : MPubrel) : List Nat :=
  encodeU16 p.packet_identifier ++ PubrelReasonCode.write p.reason ++ p.properties.write

end MPubrel

/-! ## Well-formedness of packet values -/

/-- An MQTT string or binary element fits its two-byte length prefix and
consists of bytes. -/
def WFString (s : List Nat) : Prop := s.length < 65536 ∧ ∀ b ∈ s, b < 256

instance (s : List Nat) : Decidable (WFString s) := by unfold WFString; infer_instance

/-- Well-formed DISCONNECT packet value: the property values fit their wire
types and the property block body length fits a VarInt. -/
def MDisconnect.WellFormed (p : MDisconnect) : Prop :=
  (∀ v ∈ p.properties.session_expiry_interval, v < 4294967296) ∧
  (∀ s ∈ p.properties.reason_string, WFString s) ∧
  (∀ kv ∈ p.properties.user_properties, WFString kv.1 ∧ WFString kv.2) ∧
  (∀ s ∈ p.properties.server_reference, WFString s) ∧
  p.properties.writeBody.length < 268435456

instance (p : MDisconnect) : Decidable p.WellFormed := by
  unfold MDisconnect.WellFormed; infer_instance

/-- Well-formed PUBREL packet value: the packet identifier is a 16-bit
integer, property values fit their wire types, and the property block body
length fits a VarInt. -/
def MPubrel.WellFormed (p : MPubrel) : Prop :=
  p.packet_identifier < 65536 ∧
  (∀ s ∈ p.properties.reason_string, WFString s) ∧
  (∀ kv ∈ p.properties.user_properties, WFString kv.1 ∧ WFString kv.2) ∧
  p.properties.writeBody.length < 268435456

instance (p : MPubrel) : Decidable p.WellFormed := by
  unfold MPubrel.WellFormed; infer_instance

/-! ## Full DISCONNECT packet with fixed header -/

/-- Modelled from the spec: the fixed-header layer of
`MqttPacket::parse_complete` for a v5 DISCONNECT (`packets/mod.rs` is
absent).  First byte `(packet_type << 4) | flags` with packet type 14 and
flags 0, then the Remaining Length VarInt, which must cover exactly the rest
of the buffer; the body parser is bound to the Remaining Length slice. -/
def parseCompleteDisconnect (bytes : List Nat) : Option MDisconnect :=
  match bytes with
  | [] => none
  | b0 :: rest =>
    if b0 = 0xE0 then
      match decodeVarInt rest with
      | none => none
      | some (len, rest1) =>
        if rest1.length = len then
          match MDisconnect.parse rest1 with
          | some (packet, _) => some packet
          | none => none
        else none
    else none

/-- Modelled from the spec: the fixed-header layer of `MqttPacket::write`
for a v5 DISCONNECT (`packets/mod.rs` is absent).  The encoder computes the
body size first (`MDisconnect::binary_size`), emits `0xE0`, the Remaining
Length, and the body produced by `MDisconnect::write`. -/
def writeCompleteDisconnect (p : MDisconnect) : List Nat :=
  0xE0 :: (encodeVarInt p.write.length ++ p.write)

/-! ## Subscription trie (`src/src/server/subscriptions.rs`) -/

/-- Modelled from the spec: the v3 quality-of-service levels
(`mqtt-format/src/v3/qos.rs` is absent): 0 at most once, 1 at least once,
2 exactly once. -/
inductive MQualityOfService
  | atMostOnce
  | atLeastOnce
  | exactlyOnce
deriving DecidableEq, Repr

/-- Embeds `ClientId` from `src/src/server/mod.rs` line 58: a newtype over a
string. -/
structure ClientId where
  id : String
deriving DecidableEq, Repr

/-- Embeds `ClientInformation` from `subscriptions.rs` lines 157-161.  The
`client_sender` mpsc handle is a runtime object; only the identifying
`client_id` is represented, the outbound queue itself is modelled
separately. -/
structure ClientInformation where
  client_id : ClientId
deriving DecidableEq, Repr

/-- Embeds `ClientSubscription` from `subscriptions.rs` lines 163-168. -/
structure ClientSubscription where
  client : ClientInformation
  qos : MQualityOfService
deriving DecidableEq, Repr

/-- Embeds the `TopicFilter` enum from `subscriptions.rs` lines 74-79. -/
inductive TopicFilter
  | multiWildcard
  | singleWildcard
  | named (s : String)
deriving DecidableEq, Repr

/-- Embeds Rust's `str::split('/')` as used by both `parse_from` functions:
levels are separated by `/`, and leading, trailing and empty levels are
kept (the empty string yields one empty level). -/
def splitLevelsAux : List Char → List Char → List String
  | [], acc => [String.mk acc.reverse]
  | c :: cs, acc =>
    if c = '/' then String.mk acc.reverse :: splitLevelsAux cs []
    else splitLevelsAux cs (c :: acc)

/-- Splits a topic string into its levels; see `splitLevelsAux`. -/
def splitLevels (s : String) : List String := splitLevelsAux s.data []

/-- Embeds `TopicFilter::parse_from` from `subscriptions.rs` lines 82-91:
each `/`-separated piece becomes `MultiWildcard` for `#`, `SingleWildcard`
for `+`, and `Named` otherwise. -/
def TopicFilter.parse_from (topic : String) : List TopicFilter :=
  (splitLevels topic).map fun piece =>
    if piece = "#" then TopicFilter.multiWildcard
    else if piece = "+" then TopicFilter.singleWildcard
    else TopicFilter.named piece

/-- Embeds `TopicName` from `subscriptions.rs` line 23: the list of levels
of a publish topic. -/
abbrev TopicName := List String

/-- Embeds `TopicName::parse_from` from `subscriptions.rs` lines 26-28. -/
def TopicName.parse_from (topic : String) : TopicName := splitLevels topic

/-- Embeds `SubscriptionTopic` from `subscriptions.rs` lines 182-186: a trie
node carrying a subscriber list and child nodes keyed by one filter level.
The `HashMap` is modelled as an association list with unique keys. -/
inductive SubscriptionTopic
  | node (subscriptions : List ClientSubscription)
      (children : List (TopicFilter × SubscriptionTopic))

/-- The subscriber list of a trie node. -/
def SubscriptionTopic.subs : SubscriptionTopic → List ClientSubscription
  | .node s _ => s

/-- The child map of a trie node. -/
def SubscriptionTopic.childMap : SubscriptionTopic → List (TopicFilter × SubscriptionTopic)
  | .node _ c => c

/-- Embeds `HashMap::get` on the child map: the value stored under a key,
if any. -/
def childGet (children : List (TopicFilter × SubscriptionTopic)) (k : TopicFilter) :
    Option SubscriptionTopic :=
  match children with
  | [] => none
  | (k1, c) :: rest => if k1 = k then some c else childGet rest k

/-- Embeds `HashMap::entry(..).or_default()` followed by a recursive update:
the entry under `f` is updated in place when present and inserted as an
updated default node otherwise. -/
def childUpdate (children : List (TopicFilter × SubscriptionTopic)) (f : TopicFilter)
    (upd : SubscriptionTopic → SubscriptionTopic) :
    List (TopicFilter × SubscriptionTopic) :=
  match children with
  | [] => [(f, upd (.node [] []))]
  | (k, t) :: others =>
    if k = f then (k, upd t) :: others
    else (k, t) :: childUpdate others f upd

/-- Embeds `SubscriptionTopic::add_subscription` from `subscriptions.rs`
lines 189-199: descend along the filter levels creating nodes on demand and
push the subscription onto the final node's subscriber list. -/
def SubscriptionTopic.add_subscription (t : SubscriptionTopic) :
    List TopicFilter → ClientSubscription → SubscriptionTopic
  | [], c =>
    match t with
    | .node subs children => .node (subs ++ [c]) children
  | f :: rest, c =>
    match t with
    | .node subs children =>
      .node subs (childUpdate children f (fun child => child.add_subscription rest c))

/-- Embeds `TopicName::get_matches` from `subscriptions.rs` lines 30-71: the
concatenation of the subscribers under a `#` child, the recursive matches of
the `+` child, the recursive matches of the child named like level `idx`,
and the node's own subscribers when the topic is exhausted. -/
def TopicName.get_matches (topic : TopicName) (idx : Nat) (routing : SubscriptionTopic) :
    List ClientSubscription :=
  match routing with
  | .node subscriptions children =>
    let multiWild := match childGet children .multiWildcard with
      | some child => child.subs
      | none => []
    let singleWild := match h : childGet children .singleWildcard with
      | some child => TopicName.get_matches topic (idx + 1) child
      | none => []
    let nestedNamed := match h : (topic.get? idx).bind
        (fun topicLevel => childGet children (.named topicLevel)) with
      | some child => TopicName.get_matches topic (idx + 1) child
      | none => []
    let currentNamed := if idx = topic.length then subscriptions else []
    multiWild ++ singleWild ++ nestedNamed ++ currentNamed
termination_by sizeOf routing
decreasing_by
  · rename_i children
    have hlt : sizeOf child < sizeOf children := by
      induction children with
      | nil => simp [childGet] at h
      | cons p rest ih =>
        obtain ⟨k1, c1⟩ := p
        simp only [childGet] at h
        split at h
        · cases h; simp; omega
        · have := ih h; simp; omega
    simp
    omega
  · rename_i children
    rcases Option.bind_eq_some.mp h with ⟨l, _, h2⟩
    have hlt : sizeOf child < sizeOf children := by
      clear h
      induction children with
      | nil => simp [childGet] at h2
      | cons p rest ih =>
        obtain ⟨k1, c1⟩ := p
        simp only [childGet] at h2
        split at h2
        · cases h2; simp; omega
        · have := ih h2; simp; omega
    simp
    omega

/-- The subscriber list attached to the node reached by an exact filter
path, or `[]` when no such node exists.  Observer used to state the
per-filter uniqueness claim. -/
def subsAtPath (t : SubscriptionTopic) : List TopicFilter → List ClientSubscription
  | [] => t.subs
  | f :: rest =>
    match childGet t.childMap f with
    | some child => subsAtPath child rest
    | none => []

/-- How often a client id occurs in a subscriber list. -/
def countClient (subs : List ClientSubscription) (cid : ClientId) : Nat :=
  (subs.filter fun s => s.client.client_id = cid).length

/-! ## Broker session and router logic (`src/src/server/mod.rs`) -/

/-- Embeds the session-presence computation of `connect_client`
(`mod.rs` lines 179-184) over the key set of the `clients` map: with
`clean_session` any existing entry is removed and `session_present` is
false, otherwise `session_present` is whether the map contains the id. -/
def connectSessionStep (clients : List ClientId) (cid : ClientId) (clean_session : Bool) :
    Bool × List ClientId :=
  if clean_session then (false, clients.filter fun k => k ≠ cid)
  else (clients.contains cid, clients)

/-- Embeds the subsequent `entry(client_id).or_insert_with(default)`
(`mod.rs` lines 195-201): ensure an entry for the id exists. -/
def orInsert (clients : List ClientId) (cid : ClientId) : List ClientId :=
  if clients.contains cid then clients else clients ++ [cid]

/-- Embeds lines 179-201 of `mod.rs` as one step: the CONNACK
`session_present` flag and the key set after the connect. -/
def connect_client_session (clients : List ClientId) (cid : ClientId) (clean_session : Bool) :
    Bool × List ClientId :=
  let step := connectSessionStep clients cid clean_session
  (step.1, orInsert step.2 cid)

/-- Embeds the read-loop idle timeout computation from `mod.rs` line 263:
`Duration::from_secs((keep_alive as u64 * 150) / 100)`, in whole seconds. -/
def keepAliveDurationSecs (keep_alive : Nat) : Nat := keep_alive * 150 / 100

/-- Modelled from the spec: the broker's routed message record
(`src/src/server/message.rs` is absent): author, payload, topic, retain
flag and the QoS it was published with. -/
structure MqttMessage where
  author : ClientId
  payload : List Nat
  topic : String
  retain : Bool
  qos : MQualityOfService
deriving DecidableEq, Repr

/-- Modelled from the spec: the v3 `MPublish` packet value as constructed by
the broker (`mqtt-format/src/v3/packet.rs` is absent): DUP and RETAIN
flags, QoS, topic name, optional packet identifier and payload. -/
structure MPublish where
  dup : Bool
  qos : MQualityOfService
  retain : Bool
  topic_name : String
  id : Option Nat
  payload : List Nat
deriving DecidableEq, Repr

/-- Embeds the send loop body of `connect_client` (`mod.rs` lines 218-242):
a received message authored by this client is skipped, any other is
forwarded as a PUBLISH with `dup = false`, `qos = AtMostOnce`, no packet
identifier, and topic, payload and retain taken from the message. -/
def sendLoopStep (self : ClientId) (packet : MqttMessage) : Option MPublish :=
  if packet.author = self then none
  else
    some
      { dup := false
        qos := .atMostOnce
        retain := packet.retain
        topic_name := packet.topic
        id := none
        payload := packet.payload }

/-- Events the read loop of `connect_client` reacts to, as far as the
last-will state is concerned: a DISCONNECT packet, any other packet, and
the end of the stream (read error, malformed packet or keep-alive timeout
breaking the loop). -/
inductive ReadEvent
  | disconnectPacket
  | otherPacket
deriving DecidableEq, Repr

/-- Embeds the `last_will` state over the read loop of `connect_client`
(`mod.rs` lines 266-357): the `MPacket::Disconnect` arm executes
`last_will.take()` and breaks; no other arm touches the will; when the
stream ends (error or timeout) the loop breaks with the will unchanged. -/
def readLoopLastWill (lastWill : Option MqttMessage) : List ReadEvent → Option MqttMessage
  | [] => lastWill
  | .disconnectPacket :: _ => none
  | .otherPacket :: rest => readLoopLastWill lastWill rest

/-- Embeds the will epilogue after the read loop (`mod.rs` lines 359-362).
The source binds the future returned by
`published_packets.route_message(will)` to `_` and never awaits it, so the
routing body never runs: no message is handed to the subscription manager,
whatever the remaining will is. -/
def willEpilogueRouted (lastWill : Option MqttMessage) : List MqttMessage :=
  match lastWill with
  | some _ => []
  | none => []

/-- Modelled from the spec: the will handler the specification describes
("if the read loop exits with a non-empty last-will, publish it through the
trie before session teardown"): the remaining will is routed. -/
def willEpilogueRoutedSpec (lastWill : Option MqttMessage) : List MqttMessage :=
  match lastWill with
  | some w => [w]
  | none => []

/-- Embeds the outbound queue semantics of the per-subscriber channel
created at `mod.rs` lines 210-211 via
`tokio::sync::mpsc::unbounded_channel` and used by
`ClientSubscription::publish_message` (`subscriptions.rs` lines 176-180):
an unbounded send appends the message and returns immediately; it never
suspends and never drops for capacity reasons. -/
def unboundedSend (queue : List MqttMessage) (m : MqttMessage) : List MqttMessage :=
  queue ++ [m]

/-- Embeds `ClientSubscription::publish_message` (`subscriptions.rs` lines
176-180): a plain unbounded send of the routed message. -/
def publishMessage (queue : List MqttMessage) (m : MqttMessage) : List MqttMessage :=
  unboundedSend queue m

/-! ## Concrete fixtures used in the theorems -/

/-- A subscriber with the given client id, requesting QoS 0. -/
def subClient (s : String) : ClientSubscription :=
  { client := { client_id := { id := s } }, qos := .atMostOnce }

/-- Subscriber and trie for the filter `sport/#`. -/
def cSportHash : ClientSubscription := subClient "sub-sport-hash"

/-- Trie obtained by subscribing `cSportHash` to `sport/#`. -/
def trieSportHash : SubscriptionTopic :=
  (SubscriptionTopic.node [] []).add_subscription (TopicFilter.parse_from "sport/#") cSportHash

/-- Subscriber for the filter `sport/+/player1`. -/
def cSportPlus : ClientSubscription := subClient "sub-sport-plus"

/-- Trie obtained by subscribing `cSportPlus` to `sport/+/player1`. -/
def trieSportPlus : SubscriptionTopic :=
  (SubscriptionTopic.node [] []).add_subscription
    (TopicFilter.parse_from "sport/+/player1") cSportPlus

/-- Subscriber for the filter `+/+`. -/
def cPlusPlus : ClientSubscription := subClient "sub-plus-plus"

/-- Trie obtained by subscribing `cPlusPlus` to `+/+`. -/
def triePlusPlus : SubscriptionTopic :=
  (SubscriptionTopic.node [] []).add_subscription (TopicFilter.parse_from "+/+") cPlusPlus

/-- Subscriber for the root filter `#`. -/
def cRootHash : ClientSubscription := subClient "sub-root-hash"

/-- Trie obtained by subscribing `cRootHash` to `#`. -/
def trieRootHash : SubscriptionTopic :=
  (SubscriptionTopic.node [] []).add_subscription (TopicFilter.parse_from "#") cRootHash

/-- Subscriber for the filter `+/broker/uptime` whose first level is `+`. -/
def cRootPlus : ClientSubscription := subClient "sub-root-plus"

/-- Trie obtained by subscribing `cRootPlus` to `+/broker/uptime`. -/
def trieRootPlus : SubscriptionTopic :=
  (SubscriptionTopic.node [] []).add_subscription
    (TopicFilter.parse_from "+/broker/uptime") cRootPlus

/-- Subscriber for the filter `$SYS/#`. -/
def cSysHash : ClientSubscription := subClient "sub-sys-hash"

/-- Trie obtained by subscribing `cSysHash` to `$SYS/#`. -/
def trieSysHash : SubscriptionTopic :=
  (SubscriptionTopic.node [] []).add_subscription (TopicFilter.parse_from "$SYS/#") cSysHash

/-- A duplicated subscriber used for the per-filter uniqueness claim. -/
def cDup : ClientSubscription := subClient "dup-client"

/-- Trie obtained by subscribing the same client twice to `a/b`. -/
def trieDupTwice : SubscriptionTopic :=
  ((SubscriptionTopic.node [] []).add_subscription (TopicFilter.parse_from "a/b") cDup
    ).add_subscription (TopicFilter.parse_from "a/b") cDup

/-- A concrete well-formed DISCONNECT packet value exercising every
property slot. -/
def discWitness : MDisconnect :=
  { reason_code := .serverShuttingDown
    properties :=
      { session_expiry_interval := some 123
        reason_string := some [102, 111, 111]
        user_properties := [([0, 1], [104, 106])]
        server_reference := some [98, 97, 114] } }

/-- A concrete well-formed PUBREL packet value with properties present. -/
def pubrelWitness : MPubrel :=
  { packet_identifier := 13
    reason := .success
    properties :=
      { reason_string := some [102]
        user_properties := [([107], [118])] } }

/-- A concrete will message. -/
def willFixture : MqttMessage :=
  { author := { id := "will-client" }
    payload := [98, 121, 101]
    topic := "w"
    retain := false
    qos := .atMostOnce }

/-- A concrete routed message. -/
def msgFixture : MqttMessage :=
  { author := { id := "pub-client" }
    payload := [1]
    topic := "t"
    retain := false
    qos := .atMostOnce }

/-- The PUBLISH packet the send loop builds from `msgFixture`. -/
def forwardedFixture : MPublish :=
  { dup := false
    qos := .atMostOnce
    retain := false
    topic_name := "t"
    id := none
    payload := [1] }

/-! ## Primitive codec round-trip lemmas -/

theorem decodeVarInt_encodeVarInt (n : Nat) (h : n < 268435456) (rest : List Nat) :
    decodeVarInt (encodeVarInt n ++ rest) = some (n, rest) := by
  unfold encodeVarInt
  by_cases h1 : n < 128
  · simp [h1, decodeVarInt]
  · by_cases h2 : n < 16384
    · have hb0 : ¬ (n % 128 + 128 < 128) := by omega
      have hb1 : n / 128 < 128 := by omega
      simp [h1, h2, decodeVarInt, hb0, hb1]
      omega
    · by_cases h3 : n < 2097152
      · have hb0 : ¬ (n % 128 + 128 < 128) := by omega
        have hb1 : ¬ (n / 128 % 128 + 128 < 128) := by omega
        have hb2 : n / 16384 < 128 := by omega
        simp [h1, h2, h3, decodeVarInt, hb0, hb1, hb2]
        omega
      · have hb0 : ¬ (n % 128 + 128 < 128) := by omega
        have hb1 : ¬ (n / 128 % 128 + 128 < 128) := by omega
        have hb2 : ¬ (n / 16384 % 128 + 128 < 128) := by omega
        have hb3 : n / 2097152 < 128 := by omega
        simp [h1, h2, h3, decodeVarInt, hb0, hb1, hb2, hb3]
        omega

theorem encodeVarInt_ne_nil (n : Nat) : encodeVarInt n ≠ [] := by
  unfold encodeVarInt
  split_ifs <;> simp

theorem decodeU16_encodeU16 (v : Nat) (h : v < 65536) (rest : List Nat) :
    decodeU16 (encodeU16 v ++ rest) = some (v, rest) := by
  simp [encodeU16, decodeU16]
  omega

theorem decodeU32_encodeU32 (v : Nat) (h : v < 4294967296) (rest : List Nat) :
    decodeU32 (encodeU32 v ++ rest) = some (v, rest) := by
  simp [encodeU32, decodeU32]
  omega

theorem decodeMqttString_encodeMqttString (s : List Nat) (h : s.length < 65536)
    (rest : List Nat) : decodeMqttString (encodeMqttString s ++ rest) = some (s, rest) := by
  unfold encodeMqttString decodeMqttString
  rw [List.append_assoc, decodeU16_encodeU16 s.length h]
  have hlen : ¬ ((s ++ rest).length < s.length) := by simp
  simp [hlen]

theorem DisconnectReasonCode.ofByte_toByte (c : DisconnectReasonCode) :
    DisconnectReasonCode.ofByte c.toByte = some c := by
  cases c <;> rfl

theorem DisconnectReasonCode.parse_toByte (c : DisconnectReasonCode) (rest : List Nat) :
    DisconnectReasonCode.parse (c.toByte :: rest) = some (c, rest) := by
  simp [DisconnectReasonCode.parse, DisconnectReasonCode.ofByte_toByte]

theorem pubrel_ofByte_toByte (c : PubrelReasonCode) :
    PubrelReasonCode.ofByte c.toByte = some c := by
  cases c <;> rfl

theorem pubrel_parse_toByte (c : PubrelReasonCode) (rest : List Nat) :
    PubrelReasonCode.parse (c.toByte :: rest) = some (c, rest) := by
  simp [PubrelReasonCode.parse, pubrel_ofByte_toByte]

/-! ## DISCONNECT property-loop lemmas -/

theorem DisconnectProperties.parseLoop_sesStage (o : Option Nat)
    (ho : ∀ v ∈ o, v < 4294967296) (f : Nat) (rest : List Nat)
    (acc : DisconnectProperties) (hacc : acc.session_expiry_interval = none) :
    DisconnectProperties.parseLoop (optCount o + f) (u32PropSeg 0x11 o ++ rest) acc =
      DisconnectProperties.parseLoop f rest { acc with session_expiry_interval := o } := by
  cases o with
  | none =>
    simp only [optCount, u32PropSeg, List.nil_append, Nat.zero_add]
    rw [← hacc]
  | some v =>
    have hv : v < 4294967296 := ho v rfl
    simp only [optCount, u32PropSeg, List.append_assoc]
    rw [Nat.add_comm 1 f]
    have h17 : encodeVarInt 0x11 = [0x11] := rfl
    rw [h17]
    simp only [List.cons_append, List.nil_append, DisconnectProperties.parseLoop]
    simp [decodeVarInt, decodeU32_encodeU32 v hv rest, hacc]

theorem DisconnectProperties.parseLoop_rstringStage (o : Option (List Nat))
    (ho : ∀ s ∈ o, s.length < 65536) (f : Nat) (rest : List Nat)
    (acc : DisconnectProperties) (hacc : acc.reason_string = none) :
    DisconnectProperties.parseLoop (optCount o + f) (stringPropSeg 0x1F o ++ rest) acc =
      DisconnectProperties.parseLoop f rest { acc with reason_string := o } := by
  cases o with
  | none =>
    simp only [optCount, stringPropSeg, List.nil_append, Nat.zero_add]
    rw [← hacc]
  | some s =>
    have hs : s.length < 65536 := ho s rfl
    simp only [optCount, stringPropSeg, List.append_assoc]
    rw [Nat.add_comm 1 f]
    have h31 : encodeVarInt 0x1F = [0x1F] := rfl
    rw [h31]
    simp only [List.cons_append, List.nil_append, DisconnectProperties.parseLoop]
    simp [decodeVarInt, decodeMqttString_encodeMqttString s hs rest, hacc]

theorem DisconnectProperties.parseLoop_serverStage (o : Option (List Nat))
    (ho : ∀ s ∈ o, s.length < 65536) (f : Nat) (rest : List Nat)
    (acc : DisconnectProperties) (hacc : acc.server_reference = none) :
    DisconnectProperties.parseLoop (optCount o + f) (stringPropSeg 0x1C o ++ rest) acc =
      DisconnectProperties.parseLoop f rest { acc with server_reference := o } := by
  cases o with
  | none =>
    simp only [optCount, stringPropSeg, List.nil_append, Nat.zero_add]
    rw [← hacc]
  | some s =>
    have hs : s.length < 65536 := ho s rfl
    simp only [optCount, stringPropSeg, List.append_assoc]
    rw [Nat.add_comm 1 f]
    have h28 : encodeVarInt 0x1C = [0x1C] := rfl
    rw [h28]
    simp only [List.cons_append, List.nil_append, DisconnectProperties.parseLoop]
    simp [decodeVarInt, decodeMqttString_encodeMqttString s hs rest, hacc]

theorem DisconnectProperties.parseLoop_userStage (pairs : List (List Nat × List Nat))
    (hp : ∀ kv ∈ pairs, kv.1.length < 65536 ∧ kv.2.length < 65536) (f : Nat)
    (rest : List Nat) (acc : DisconnectProperties) :
    DisconnectProperties.parseLoop (pairs.length + f) (userPropSeg pairs ++ rest) acc =
      DisconnectProperties.parseLoop f rest
        { acc with user_properties := acc.user_properties ++ pairs } := by
  induction pairs generalizing acc with
  | nil => simp [userPropSeg]
  | cons kv ps ih =>
    obtain ⟨k, v⟩ := kv
    have hk : k.length < 65536 := (hp (k, v) (by simp)).1
    have hv : v.length < 65536 := (hp (k, v) (by simp)).2
    have hfuel : ((k, v) :: ps).length + f = (ps.length + f) + 1 := by
      simp only [List.length_cons]
      omega
    rw [hfuel]
    simp only [userPropSeg, List.flatMap_cons, List.append_assoc]
    have h38 : encodeVarInt 0x26 = [0x26] := rfl
    rw [h38]
    simp only [List.cons_append, List.nil_append, DisconnectProperties.parseLoop]
    simp only [decodeVarInt]
    norm_num
    simp only [decodeMqttString_encodeMqttString k hk,
      decodeMqttString_encodeMqttString v hv]
    have := ih (fun kv hkv => hp kv (List.mem_cons_of_mem _ hkv))
      { acc with user_properties := acc.user_properties ++ [(k, v)] }
    simp only [userPropSeg, h38, List.cons_append, List.nil_append, List.append_assoc] at this
    rw [this]

theorem optCount_le_u32Seg (id : Nat) (o : Option Nat) :
    optCount o ≤ (u32PropSeg id o).length := by
  cases o with
  | none => simp [optCount, u32PropSeg]
  | some v =>
    have hpos : 0 < (encodeVarInt id).length := List.length_pos.mpr (encodeVarInt_ne_nil id)
    simp only [optCount, u32PropSeg, List.length_append, encodeU32, List.length_cons,
      List.length_nil]
    omega

theorem optCount_le_stringSeg (id : Nat) (o : Option (List Nat)) :
    optCount o ≤ (stringPropSeg id o).length := by
  cases o with
  | none => simp [optCount, stringPropSeg]
  | some s =>
    have hpos : 0 < (encodeVarInt id).length := List.length_pos.mpr (encodeVarInt_ne_nil id)
    simp only [optCount, stringPropSeg, List.length_append, encodeMqttString, encodeU16,
      List.length_cons, List.length_nil]
    omega

theorem length_le_userSeg (pairs : List (List Nat × List Nat)) :
    pairs.length ≤ (userPropSeg pairs).length := by
  induction pairs with
  | nil => simp [userPropSeg]
  | cons kv ps ih =>
    have hpos : 0 < (encodeVarInt 0x26).length := List.length_pos.mpr (encodeVarInt_ne_nil 0x26)
    simp only [userPropSeg, List.flatMap_cons, List.length_append, List.length_cons]
    simp only [userPropSeg] at ih
    omega

theorem DisconnectProperties.parseLoop_writeBody (p : DisconnectProperties)
    (h1 : ∀ v ∈ p.session_expiry_interval, v < 4294967296)
    (h2 : ∀ s ∈ p.reason_string, s.length < 65536)
    (h3 : ∀ kv ∈ p.user_properties, kv.1.length < 65536 ∧ kv.2.length < 65536)
    (h4 : ∀ s ∈ p.server_reference, s.length < 65536) (f : Nat) :
    DisconnectProperties.parseLoop
      (optCount p.session_expiry_interval + (optCount p.reason_string +
        (p.user_properties.length + (optCount p.server_reference + f))))
      p.writeBody DisconnectProperties.new = some p := by
  simp only [DisconnectProperties.writeBody, List.append_assoc]
  rw [DisconnectProperties.parseLoop_sesStage p.session_expiry_interval h1 _ _ _ rfl]
  rw [DisconnectProperties.parseLoop_rstringStage p.reason_string h2 _ _ _ rfl]
  rw [DisconnectProperties.parseLoop_userStage p.user_properties h3 _ _ _]
  rw [← List.append_nil (stringPropSeg 0x1C p.server_reference)]
  rw [DisconnectProperties.parseLoop_serverStage p.server_reference h4 _ _ _ rfl]
  simp [DisconnectProperties.parseLoop, DisconnectProperties.new]

theorem DisconnectProperties.propsCount_le (p : DisconnectProperties) :
    optCount p.session_expiry_interval + (optCount p.reason_string +
      (p.user_properties.length + (optCount p.server_reference + 0))) ≤
      p.writeBody.length := by
  have hs := optCount_le_u32Seg 0x11 p.session_expiry_interval
  have hr := optCount_le_stringSeg 0x1F p.reason_string
  have hu := length_le_userSeg p.user_properties
  have hv := optCount_le_stringSeg 0x1C p.server_reference
  simp only [DisconnectProperties.writeBody, List.length_append]
  omega

theorem disc_props_parse_write (p : DisconnectProperties)
    (h1 : ∀ v ∈ p.session_expiry_interval, v < 4294967296)
    (h2 : ∀ s ∈ p.reason_string, s.length < 65536)
    (h3 : ∀ kv ∈ p.user_properties, kv.1.length < 65536 ∧ kv.2.length < 65536)
    (h4 : ∀ s ∈ p.server_reference, s.length < 65536)
    (hlen : p.writeBody.length < 268435456) (rest : List Nat) :
    DisconnectProperties.parse (p.write ++ rest) = some (p, rest) := by
  have hc := DisconnectProperties.propsCount_le p
  have hloop := DisconnectProperties.parseLoop_writeBody p h1 h2 h3 h4
    (p.writeBody.length - (optCount p.session_expiry_interval + (optCount p.reason_string +
      (p.user_properties.length + (optCount p.server_reference + 0)))))
  rw [show optCount p.session_expiry_interval + (optCount p.reason_string +
      (p.user_properties.length + (optCount p.server_reference +
        (p.writeBody.length - (optCount p.session_expiry_interval + (optCount p.reason_string +
          (p.user_properties.length + (optCount p.server_reference + 0)))))))) =
      p.writeBody.length from by omega] at hloop
  simp only [DisconnectProperties.write, List.append_assoc]
  simp only [DisconnectProperties.parse, decodeVarInt_encodeVarInt p.writeBody.length hlen]
  have hnl : ¬ ((p.writeBody ++ rest).length < p.writeBody.length) := by
    simp only [List.length_append]
    omega
  rw [if_neg hnl]
  rw [List.take_left, List.drop_left]
  rw [hloop]

theorem DisconnectProperties.eq_new_of_writeBody_nil (p : DisconnectProperties)
    (h : p.writeBody = []) : p = DisconnectProperties.new := by
  obtain ⟨ses, rs, ups, sr⟩ := p
  simp only [DisconnectProperties.writeBody, List.append_eq_nil] at h
  obtain ⟨⟨⟨hses, hrs⟩, hups⟩, hsr⟩ := h
  cases ses with
  | none => cases rs with
    | none => cases sr with
      | none => cases ups with
        | nil => rfl
        | cons kv ps => simp [userPropSeg, encodeVarInt] at hups
      | some s => simp [stringPropSeg, encodeVarInt] at hsr
    | some s => simp [stringPropSeg, encodeVarInt] at hrs
  | some v => simp [u32PropSeg, encodeVarInt] at hses

theorem mdisconnect_parse_write (p : MDisconnect) (h : p.WellFormed) :
    (MDisconnect.parse p.write).map Prod.fst = some p := by
  obtain ⟨rc, props⟩ := p
  unfold MDisconnect.WellFormed at h
  obtain ⟨h1, h2, h3, h4, hlen⟩ := h
  simp only at h1 h2 h3 h4 hlen
  have h2l : ∀ s ∈ props.reason_string, s.length < 65536 := fun s hs => (h2 s hs).1
  have h3l : ∀ kv ∈ props.user_properties, kv.1.length < 65536 ∧ kv.2.length < 65536 :=
    fun kv hkv => ⟨(h3 kv hkv).1.1, (h3 kv hkv).2.1⟩
  have h4l : ∀ s ∈ props.server_reference, s.length < 65536 := fun s hs => (h4 s hs).1
  have hw : MDisconnect.write ⟨rc, props⟩ = rc.toByte :: props.write := by
    simp [MDisconnect.write, DisconnectReasonCode.write]
  rw [hw]
  by_cases hb : props.writeBody = []
  · have hpn : props = DisconnectProperties.new :=
      DisconnectProperties.eq_new_of_writeBody_nil props hb
    subst hpn
    simp [MDisconnect.parse, show DisconnectProperties.new.write = [0] from rfl,
      DisconnectReasonCode.parse_toByte]
  · have hbl : 0 < props.writeBody.length := List.length_pos.mpr hb
    have hvl : 0 < (encodeVarInt props.writeBody.length).length :=
      List.length_pos.mpr (encodeVarInt_ne_nil _)
    have h2le : 2 ≤ props.write.length := by
      simp only [DisconnectProperties.write, List.length_append]
      omega
    have h1le : 1 ≤ (rc.toByte :: props.write).length := by simp
    simp only [MDisconnect.parse, if_pos h1le, DisconnectReasonCode.parse_toByte,
      if_pos h2le]
    have := disc_props_parse_write props h1 h2l h3l h4l hlen []
    rw [List.append_nil] at this
    rw [this]
    rfl

/-! ## PUBREL property-loop lemmas -/

theorem pubrel_parseLoop_rstringStage (o : Option (List Nat))
    (ho : ∀ s ∈ o, s.length < 65536) (f : Nat) (rest : List Nat)
    (acc : PubrelProperties) (hacc : acc.reason_string = none) :
    PubrelProperties.parseLoop (optCount o + f) (stringPropSeg 0x1F o ++ rest) acc =
      PubrelProperties.parseLoop f rest { acc with reason_string := o } := by
  cases o with
  | none =>
    simp only [optCount, stringPropSeg, List.nil_append, Nat.zero_add]
    rw [← hacc]
  | some s =>
    have hs : s.length < 65536 := ho s rfl
    simp only [optCount, stringPropSeg, List.append_assoc]
    rw [Nat.add_comm 1 f]
    have h31 : encodeVarInt 0x1F = [0x1F] := rfl
    rw [h31]
    simp only [List.cons_append, List.nil_append, PubrelProperties.parseLoop]
    simp [decodeVarInt, decodeMqttString_encodeMqttString s hs rest, hacc]

theorem pubrel_parseLoop_userStage (pairs : List (List Nat × List Nat))
    (hp : ∀ kv ∈ pairs, kv.1.length < 65536 ∧ kv.2.length < 65536) (f : Nat)
    (rest : List Nat) (acc : PubrelProperties) :
    PubrelProperties.parseLoop (pairs.length + f) (userPropSeg pairs ++ rest) acc =
      PubrelProperties.parseLoop f rest
        { acc with user_properties := acc.user_properties ++ pairs } := by
  induction pairs generalizing acc with
  | nil => simp [userPropSeg]
  | cons kv ps ih =>
    obtain ⟨k, v⟩ := kv
    have hk : k.length < 65536 := (hp (k, v) (by simp)).1
    have hv : v.length < 65536 := (hp (k, v) (by simp)).2
    have hfuel : ((k, v) :: ps).length + f = (ps.length + f) + 1 := by
      simp only [List.length_cons]
      omega
    rw [hfuel]
    simp only [userPropSeg, List.flatMap_cons, List.append_assoc]
    have h38 : encodeVarInt 0x26 = [0x26] := rfl
    rw [h38]
    simp only [List.cons_append, List.nil_append, PubrelProperties.parseLoop]
    simp only [decodeVarInt]
    norm_num
    simp only [decodeMqttString_encodeMqttString k hk,
      decodeMqttString_encodeMqttString v hv]
    have := ih (fun kv hkv => hp kv (List.mem_cons_of_mem _ hkv))
      { acc with user_properties := acc.user_properties ++ [(k, v)] }
    simp only [userPropSeg, h38, List.cons_append, List.nil_append, List.append_assoc] at this
    rw [this]

theorem pubrel_parseLoop_writeBody (p : PubrelProperties)
    (h2 : ∀ s ∈ p.reason_string, s.length < 65536)
    (h3 : ∀ kv ∈ p.user_properties, kv.1.length < 65536 ∧ kv.2.length < 65536) (f : Nat) :
    PubrelProperties.parseLoop (optCount p.reason_string + (p.user_properties.length + f))
      p.writeBody PubrelProperties.new = some p := by
  simp only [PubrelProperties.writeBody, List.append_assoc]
  rw [pubrel_parseLoop_rstringStage p.reason_string h2 _ _ _ rfl]
  rw [← List.append_nil (userPropSeg p.user_properties)]
  rw [pubrel_parseLoop_userStage p.user_properties h3 _ _ _]
  simp [PubrelProperties.parseLoop, PubrelProperties.new]

theorem pubrel_propsCount_le (p : PubrelProperties) :
    optCount p.reason_string + (p.user_properties.length + 0) ≤ p.writeBody.length := by
  have hr := optCount_le_stringSeg 0x1F p.reason_string
  have hu := length_le_userSeg p.user_properties
  simp only [PubrelProperties.writeBody, List.length_append]
  omega

theorem pubrel_props_parse_write (p : PubrelProperties)
    (h2 : ∀ s ∈ p.reason_string, s.length < 65536)
    (h3 : ∀ kv ∈ p.user_properties, kv.1.length < 65536 ∧ kv.2.length < 65536)
    (hlen : p.writeBody.length < 268435456) (rest : List Nat) :
    PubrelProperties.parse (p.write ++ rest) = some (p, rest) := by
  have hc := pubrel_propsCount_le p
  have hloop := pubrel_parseLoop_writeBody p h2 h3
    (p.writeBody.length - (optCount p.reason_string + (p.user_properties.length + 0)))
  rw [show optCount p.reason_string + (p.user_properties.length +
      (p.writeBody.length - (optCount p.reason_string + (p.user_properties.length + 0)))) =
      p.writeBody.length from by omega] at hloop
  simp only [PubrelProperties.write, List.append_assoc]
  simp only [PubrelProperties.parse, decodeVarInt_encodeVarInt p.writeBody.length hlen]
  have hnl : ¬ ((p.writeBody ++ rest).length < p.writeBody.length) := by
    simp only [List.length_append]
    omega
  rw [if_neg hnl]
  rw [List.take_left, List.drop_left]
  rw [hloop]

theorem mpubrel_parse_write (p : MPubrel) (h : p.WellFormed) :
    (MPubrel.parse p.write).map Prod.fst = some p := by
  obtain ⟨pid, reason, props⟩ := p
  unfold MPubrel.WellFormed at h
  obtain ⟨hpid, h2, h3, hlen⟩ := h
  simp only at hpid h2 h3 hlen
  have h2l : ∀ s ∈ props.reason_string, s.length < 65536 := fun s hs => (h2 s hs).1
  have h3l : ∀ kv ∈ props.user_properties, kv.1.length < 65536 ∧ kv.2.length < 65536 :=
    fun kv hkv => ⟨(h3 kv hkv).1.1, (h3 kv hkv).2.1⟩
  have hw : MPubrel.write ⟨pid, reason, props⟩ =
      encodeU16 pid ++ (reason.toByte :: props.write) := by
    simp [MPubrel.write, PubrelReasonCode.write]
  rw [hw]
  simp only [MPubrel.parse, decodeU16_encodeU16 pid hpid]
  have hprops := pubrel_props_parse_write props h2l h3l hlen []
  rw [List.append_nil] at hprops
  simp [pubrel_parse_toByte, hprops]

/-! ## Claim C1 -/

/-- C1: round-trip of the v5 codec: for every well-formed DISCONNECT packet
value and every well-formed PUBREL packet value, parsing the byte string
produced by the value's write function yields a value structurally equal to
the original. -/
theorem c1_v5_roundtrip_disconnect_pubrel (pd : MDisconnect) (pq : MPubrel)
    (hd : pd.WellFormed) (hq : pq.WellFormed) :
    (MDisconnect.parse pd.write).map Prod.fst = some pd ∧
    (MPubrel.parse pq.write).map Prod.fst = some pq :=
  ⟨mdisconnect_parse_write pd hd, mpubrel_parse_write pq hq⟩

/-- Witness for C1: the round-trip theorem applied to one concrete
well-formed DISCONNECT and one concrete well-formed PUBREL exercising every
property slot. -/
theorem c1_v5_roundtrip_disconnect_pubrel_witness :
    discWitness.WellFormed ∧ pubrelWitness.WellFormed ∧
    ((MDisconnect.parse discWitness.write).map Prod.fst = some discWitness ∧
      (MPubrel.parse pubrelWitness.write).map Prod.fst = some pubrelWitness) :=
  ⟨by decide, by decide,
    c1_v5_roundtrip_disconnect_pubrel discWitness pubrelWitness (by decide) (by decide)⟩

/-! ## Claim C8 -/

/-- C8 counterexample: the DISCONNECT packet `[0xE0, 0x00]` decodes to
reason NormalDisconnection with empty properties as claimed, but re-encoding
that value does not reproduce `[0xE0, 0x00]`: the writer emits the reason
code and the property block unconditionally. -/
theorem c8_short_disconnect_reencode_counterexample :
    parseCompleteDisconnect [0xE0, 0x00] =
      some { reason_code := .normalDisconnection, properties := DisconnectProperties.new } ∧
    writeCompleteDisconnect
        { reason_code := .normalDisconnection, properties := DisconnectProperties.new } ≠
      [0xE0, 0x00] := by
  decide

/-- C8 amended: `[0xE0, 0x00]` decodes to reason NormalDisconnection with an
empty property block; re-encoding the decoded value produces
`[0xE0, 0x02, 0x00, 0x00]` (an explicit Normal reason code byte and an
explicit zero property-block length), not the original two bytes. -/
theorem c8_short_disconnect_decode_reencode :
    parseCompleteDisconnect [0xE0, 0x00] =
      some { reason_code := .normalDisconnection, properties := DisconnectProperties.new } ∧
    writeCompleteDisconnect
        { reason_code := .normalDisconnection, properties := DisconnectProperties.new } =
      [0xE0, 0x02, 0x00, 0x00] := by
  decide

/-! ## Trie fixture evaluations -/

theorem trieSportHash_eq :
    trieSportHash =
      .node [] [(.named "sport", .node [] [(.multiWildcard, .node [cSportHash] [])])] := rfl

theorem trieSportPlus_eq :
    trieSportPlus =
      .node []
        [(.named "sport",
          .node [] [(.singleWildcard, .node [] [(.named "player1", .node [cSportPlus] [])])])] :=
  rfl

theorem triePlusPlus_eq :
    triePlusPlus =
      .node [] [(.singleWildcard, .node [] [(.singleWildcard, .node [cPlusPlus] [])])] := rfl

theorem trieRootHash_eq :
    trieRootHash = .node [] [(.multiWildcard, .node [cRootHash] [])] := rfl

theorem trieRootPlus_eq :
    trieRootPlus =
      .node []
        [(.singleWildcard,
          .node [] [(.named "broker", .node [] [(.named "uptime", .node [cRootPlus] [])])])] :=
  rfl

theorem trieSysHash_eq :
    trieSysHash =
      .node [] [(.named "$SYS", .node [] [(.multiWildcard, .node [cSysHash] [])])] := rfl

theorem tnSport_eq : TopicName.parse_from "sport" = ["sport"] := rfl

theorem tnSportTennis_eq : TopicName.parse_from "sport/tennis" = ["sport", "tennis"] := rfl

theorem tnSportTennisPlayer_eq :
    TopicName.parse_from "sport/tennis/player1" = ["sport", "tennis", "player1"] := rfl

theorem tnSports_eq : TopicName.parse_from "sports" = ["sports"] := rfl

theorem tnSportTennisRankedPlayer_eq :
    TopicName.parse_from "sport/tennis/ranked/player1" =
      ["sport", "tennis", "ranked", "player1"] := rfl

theorem tnSportPlayer_eq : TopicName.parse_from "sport/player1" = ["sport", "player1"] := rfl

theorem tnFinance_eq : TopicName.parse_from "/finance" = ["", "finance"] := rfl

theorem tnSysUptime_eq :
    TopicName.parse_from "$SYS/broker/uptime" = ["$SYS", "broker", "uptime"] := rfl

/-! ## Claim C2 -/

/-- C2: trie matching over tries built with `add_subscription`: `sport/#`
matches `sport`, `sport/tennis` and `sport/tennis/player1` but not `sports`;
`sport/+/player1` matches `sport/tennis/player1` but neither
`sport/tennis/ranked/player1` nor `sport/player1`; `+/+` matches `/finance`
(the leading empty level counts as a level). -/
theorem c2_trie_matching :
    (TopicName.parse_from "sport").get_matches 0 trieSportHash = [cSportHash] ∧
    (TopicName.parse_from "sport/tennis").get_matches 0 trieSportHash = [cSportHash] ∧
    (TopicName.parse_from "sport/tennis/player1").get_matches 0 trieSportHash = [cSportHash] ∧
    (TopicName.parse_from "sports").get_matches 0 trieSportHash = [] ∧
    (TopicName.parse_from "sport/tennis/player1").get_matches 0 trieSportPlus = [cSportPlus] ∧
    (TopicName.parse_from "sport/tennis/ranked/player1").get_matches 0 trieSportPlus = [] ∧
    (TopicName.parse_from "sport/player1").get_matches 0 trieSportPlus = [] ∧
    (TopicName.parse_from "/finance").get_matches 0 triePlusPlus = [cPlusPlus] := by
  rw [tnSport_eq, tnSportTennis_eq, tnSportTennisPlayer_eq, tnSports_eq,
    tnSportTennisRankedPlayer_eq, tnSportPlayer_eq, tnFinance_eq,
    trieSportHash_eq, trieSportPlus_eq, triePlusPlus_eq]
  refine ⟨?_, ?_, ?_, ?_, ?_, ?_, ?_, ?_⟩ <;>
    simp [TopicName.get_matches, childGet, SubscriptionTopic.subs]

/-! ## Claim C3 -/

/-- C3 counterexample: the matching code has no `$`-topic rule: a root
subscription to `#`, built with `add_subscription`, is returned as a match
for the publish topic `$SYS/broker/uptime`, so the trie does not return "no
subscribers" for root-level wildcard filters on `$`-topics. -/
theorem c3_dollar_topics_counterexample :
    (TopicName.parse_from "$SYS/broker/uptime").get_matches 0 trieRootHash = [cRootHash] := by
  rw [tnSysUptime_eq, trieRootHash_eq]
  simp [TopicName.get_matches, childGet, SubscriptionTopic.subs]

/-- C3 amended: trie matching applies no special rule for `$`-topics: a
subscription to `#` and one to a filter whose first level is `+`
(`+/broker/uptime`) both match `$SYS/broker/uptime`, and `$SYS/#` matches it
as well. -/
theorem c3_dollar_topics_matched_by_wildcards :
    (TopicName.parse_from "$SYS/broker/uptime").get_matches 0 trieRootHash = [cRootHash] ∧
    (TopicName.parse_from "$SYS/broker/uptime").get_matches 0 trieRootPlus = [cRootPlus] ∧
    (TopicName.parse_from "$SYS/broker/uptime").get_matches 0 trieSysHash = [cSysHash] := by
  rw [tnSysUptime_eq, trieRootHash_eq, trieRootPlus_eq, trieSysHash_eq]
  refine ⟨?_, ?_, ?_⟩ <;>
    simp [TopicName.get_matches, childGet, SubscriptionTopic.subs]

/-! ## Claim C4 -/

/-- C4 counterexample: subscribing the same client twice to the exact filter
`a/b` leaves that client twice in the subscriber list attached to the
filter: `add_subscription` pushes unconditionally and never replaces. -/
theorem c4_duplicate_subscription_counterexample :
    countClient (subsAtPath trieDupTwice (TopicFilter.parse_from "a/b"))
      { id := "dup-client" } = 2 := by
  decide

/-- C4 amended: `add_subscription` always appends the new subscription to
the subscriber list of the node addressed by the exact filter path, whether
or not the client already appears there; a client can therefore appear
multiple times per exact filter. -/
theorem c4_add_subscription_appends (path : List TopicFilter) (t : SubscriptionTopic)
    (c : ClientSubscription) :
    subsAtPath (t.add_subscription path c) path = subsAtPath t path ++ [c] := by
  induction path generalizing t with
  | nil =>
    obtain ⟨subs, children⟩ := t
    simp [SubscriptionTopic.add_subscription, subsAtPath, SubscriptionTopic.subs]
  | cons f rest ih =>
    obtain ⟨subs, children⟩ := t
    simp only [SubscriptionTopic.add_subscription, subsAtPath, SubscriptionTopic.childMap]
    have hupd : ∀ (cs : List (TopicFilter × SubscriptionTopic)),
        childGet (childUpdate cs f (fun child => child.add_subscription rest c)) f =
          some (((childGet cs f).getD (.node [] [])).add_subscription rest c) := by
      intro cs
      induction cs with
      | nil => simp [childUpdate, childGet]
      | cons p others ihc =>
        obtain ⟨k, u⟩ := p
        by_cases hk : k = f
        · simp [childUpdate, childGet, hk]
        · simp [childUpdate, childGet, hk, ihc]
    rw [hupd children]
    cases hg : childGet children f with
    | some child => simp [hg, ih]
    | none =>
      simp [hg, ih]
      cases rest with
      | nil => simp [subsAtPath, SubscriptionTopic.subs]
      | cons f2 r2 => simp [subsAtPath, SubscriptionTopic.childMap, childGet]

/-! ## Claim C5 -/

/-- C5: handling a CONNECT with `clean_session = true` removes any existing
session entry for the client id (before a fresh one is created) and replies
`session_present = false`; with `clean_session = false` it replies
`session_present` exactly when an entry already existed — in both cases
`session_present = existing && !clean_session` — and afterwards an entry for
the id exists. -/
theorem c5_connect_session_present (clients : List ClientId) (cid : ClientId)
    (clean_session : Bool) :
    (connect_client_session clients cid clean_session).1 =
      (clients.contains cid && !clean_session) ∧
    (clean_session = true → cid ∉ (connectSessionStep clients cid clean_session).2) ∧
    cid ∈ (connect_client_session clients cid clean_session).2 := by
  refine ⟨?_, ?_, ?_⟩
  · cases clean_session <;> simp [connect_client_session, connectSessionStep]
  · intro hc
    subst hc
    simp [connectSessionStep, List.mem_filter]
  · simp only [connect_client_session, orInsert]
    by_cases h : (connectSessionStep clients cid clean_session).2.contains cid = true
    · rw [if_pos h]
      exact List.elem_iff.mp h
    · rw [if_neg h]
      simp

/-! ## Claim C6 -/

/-- C6: the read-loop timeout computation `(keep_alive * 150) / 100` yields
0 seconds for `keep_alive = 0` — so the select arms a zero-length sleep and
the loop breaks immediately, instead of having no idle timeout — and
truncates 1.5 seconds to 1 second for `keep_alive = 1`, so the timeout is
not exactly 1.5 × keep-alive either. -/
theorem c6_keep_alive_duration :
    keepAliveDurationSecs 0 = 0 ∧ keepAliveDurationSecs 1 = 1 ∧
    keepAliveDurationSecs 60 = 90 := by
  decide

/-! ## Claim C7 -/

/-- C7: after a read loop that ends with a DISCONNECT packet the last will
is cleared and nothing is routed, as claimed; but when the loop ends
ungracefully with the will still set, the will-publication epilogue routes
nothing either — the `route_message` future is dropped unawaited — while
the specified will handler would route the will. -/
theorem c7_will_dropped_unawaited :
    readLoopLastWill (some willFixture) [.disconnectPacket] = none ∧
    readLoopLastWill (some willFixture) [.otherPacket] = some willFixture ∧
    willEpilogueRouted (readLoopLastWill (some willFixture) [.otherPacket]) = [] ∧
    willEpilogueRoutedSpec (readLoopLastWill (some willFixture) [.otherPacket]) =
      [willFixture] := by
  decide

/-! ## Claim C9 -/

/-- C9: every PUBLISH the send loop forwards carries `qos = AtMostOnce`,
`dup = false` and no packet identifier, with only retain, topic and payload
taken from the routed message, regardless of the message's original QoS. -/
theorem c9_forwarded_publish_fields (self : ClientId) (m : MqttMessage) (p : MPublish)
    (h : sendLoopStep self m = some p) :
    p.qos = .atMostOnce ∧ p.dup = false ∧ p.id = none ∧
    p.retain = m.retain ∧ p.topic_name = m.topic ∧ p.payload = m.payload := by
  unfold sendLoopStep at h
  by_cases ha : m.author = self
  · rw [if_pos ha] at h
    exact absurd h (by simp)
  · rw [if_neg ha] at h
    cases h
    simp

/-- Witness for C9: the field theorem applied to a concrete routed message
forwarded to a subscriber other than its author. -/
theorem c9_forwarded_publish_fields_witness :
    sendLoopStep { id := "recv" } msgFixture = some forwardedFixture ∧
    (forwardedFixture.qos = .atMostOnce ∧ forwardedFixture.dup = false ∧
      forwardedFixture.id = none ∧ forwardedFixture.retain = msgFixture.retain ∧
      forwardedFixture.topic_name = msgFixture.topic ∧
      forwardedFixture.payload = msgFixture.payload) :=
  ⟨by decide,
    c9_forwarded_publish_fields { id := "recv" } msgFixture forwardedFixture (by decide)⟩

/-! ## Claim C10 -/

/-- C10 counterexample: the per-subscriber outbound queue is not bounded
with waiting on full: there is no capacity at which
`ClientSubscription::publish_message` leaves the queue unchanged — the
unbounded send appends at every queue length. -/
theorem c10_bounded_queue_counterexample :
    ¬ ∃ cap : Nat, ∀ (q : List MqttMessage) (m : MqttMessage),
        cap ≤ q.length → publishMessage q m = q := by
  rintro ⟨cap, h⟩
  have hfull := h (List.replicate cap msgFixture) msgFixture (by simp)
  have hlen := congrArg List.length hfull
  simp [publishMessage, unboundedSend] at hlen

/-- C10 amended: the outbound queue created for each subscriber is an
unbounded channel: `publish_message` always enqueues the routed message
immediately — the queue grows by one — so publishers never wait and no
message is dropped for capacity reasons. -/
theorem c10_unbounded_send_always_appends (q : List MqttMessage) (m : MqttMessage) :
    publishMessage q m = q ++ [m] ∧ (publishMessage q m).length = q.length + 1 := by
  simp [publishMessage, unboundedSend]

/-- Witness for C5: the session-present theorem applied to a concrete
one-entry session table, for both clean-session values. -/
theorem c5_connect_session_present_witness :
    ((connect_client_session [{ id := "c1" }] { id := "c1" } true).1 =
        (([{ id := "c1" }] : List ClientId).contains { id := "c1" } && !true) ∧
      (true = true → ({ id := "c1" } : ClientId) ∉
        (connectSessionStep [{ id := "c1" }] { id := "c1" } true).2) ∧
      ({ id := "c1" } : ClientId) ∈
        (connect_client_session [{ id := "c1" }] { id := "c1" } true).2) ∧
    ((connect_client_session [{ id := "c1" }] { id := "c2" } false).1 =
        (([{ id := "c1" }] : List ClientId).contains { id := "c2" } && !false) ∧
      (false = true → ({ id := "c2" } : ClientId) ∉
        (connectSessionStep [{ id := "c1" }] { id := "c2" } false).2) ∧
      ({ id := "c2" } : ClientId) ∈
        (connect_client_session [{ id := "c1" }] { id := "c2" } false).2) :=
  ⟨c5_connect_session_present [{ id := "c1" }] { id := "c1" } true,
    c5_connect_session_present [{ id := "c1" }] { id := "c2" } false⟩
